import Mathlib

/-!
# VoxCall — verification of the VOX detection/recording core

Shallow embedding of the core algorithms of the voxcall repository:

* `src/voxcall/audio/levels.py` — peak amplitude of a PCM chunk;
* `src/voxcall/engine.py` — idle-loop debounce, idle UI-bar cadence,
  the recording loop (quiet/total counters, timeout flag, chunk buffer),
  and trailing-silence trimming;
* `src/voxcall/upload/broadcastify.py`, `src/voxcall/upload/rdio.py`,
  `src/voxcall/upload/openmhz.py` — skip rules and the Broadcastify
  two-phase upload protocol;
* `src/voxcall/webui/controller.py` — level normalization;
* `src/voxcall/cleanup.py` — archive/delete ordering of audio artifacts.

Machine levels (Python floats) are modelled as rationals; 16-bit PCM
samples as integers with the int16 wrapping of `numpy.abs` made explicit.
-/

namespace VoxCall

/-! ## Python primitives -/

/-- The Python built-in `round` (round-half-to-even),
on an exact rational input. -/
def pyRound (q : ℚ) : ℤ :=
  if q - ⌊q⌋ < 1/2 then ⌊q⌋
  else if 1/2 < q - ⌊q⌋ then ⌊q⌋ + 1
  else if 2 ∣ ⌊q⌋ then ⌊q⌋ else ⌊q⌋ + 1

/-- Python list slicing `l[:-n]`: all elements but the last `n`
(`l[:-0]` is the empty list). -/
def pySliceDropLast {α : Type _} (n : Nat) (l : List α) : List α :=
  if n = 0 then [] else l.take (l.length - n)

/-- Whitespace for the Python method `str.strip()`. -/
def isPySpace (c : Char) : Bool :=
  c = ' ' || c = '\t' || c = '\n' || c = '\r' || c = '\x0b' || c = '\x0c'

/-- Python `str.strip()`: drop leading and trailing whitespace. -/
def pyStrip (s : String) : String :=
  (((s.data.dropWhile fun c => isPySpace c).reverse.dropWhile
      fun c => isPySpace c).reverse).asString

/-- Python `str.split(" ")` on the character list: split at every single
space, keeping empty fields; the empty string yields `[""]`. -/
def splitCharsOnSpace : List Char → List (List Char)
  | [] => [[]]
  | c :: rest =>
      let r := splitCharsOnSpace rest
      if c = ' ' then [] :: r
      else
        match r with
        | [] => [[c]]
        | w :: ws => (c :: w) :: ws

/-- Python `str.split(" ")`. -/
def pySplitSpace (s : String) : List String :=
  (splitCharsOnSpace s.data).map List.asString

/-! ## LevelAnalyzer — `src/voxcall/audio/levels.py`

`peak(samples)` is `int(max(abs(samples))) if len(samples) else 0`, where
`samples` is a numpy `int16` array: `numpy.abs` wraps on the most negative
value, `abs(-32768) = -32768`. -/

/-- `numpy.abs` on an `int16` value: ordinary absolute value except that
`-32768` maps to itself (wrap in two-complement form). -/
def int16Abs (s : ℤ) : ℤ :=
  if s = -32768 then -32768 else |s|

/-- `peak(samples)` from `levels.py`: `max` of the element-wise wrapped
absolute values, `0` for the empty chunk. -/
def peak (samples : List ℤ) : ℤ :=
  match samples.map int16Abs with
  | [] => 0
  | a :: rest => rest.foldl max a

/-- Spec-side definition ("maximum absolute sample value, or 0 for an
empty chunk"), with the true absolute value. -/
def specMaxAbs (samples : List ℤ) : ℤ :=
  (samples.map (fun s => |s|)).foldr max 0

/-! ## Trailing-silence trim — `engine.py` lines 194–198

```
if len(chunks) > silence_needed:
    chunks = chunks[:-silence_needed]
```
-/

/-- The trailing-silence trim applied to the finalized chunk buffer. -/
def trimTrailingSilence {α : Type _} (silenceNeeded : Nat) (chunks : List α) : List α :=
  if silenceNeeded < chunks.length then pySliceDropLast silenceNeeded chunks else chunks

/-- `silence_needed = max(1, int(round(vox_silence_time / rectime)))`
(`engine.py` line 150). -/
def silenceNeededOf (voxSilenceTime rectime : ℚ) : Nat :=
  max 1 (pyRound (voxSilenceTime / rectime)).toNat

/-- `timeout_needed = max(1, int(round(timeout_time_sec / rectime)))`
(`engine.py` line 151). -/
def timeoutNeededOf (timeoutTimeSec rectime : ℚ) : Nat :=
  max 1 (pyRound (timeoutTimeSec / rectime)).toNat

/-! ## Idle-loop debounce — `engine.py` lines 129–139

```
lvl = level_ui_value(samples)
if lvl > threshold or threshold == 0:
    counter += 1
else:
    counter = 0
if counter >= 2:
    counter = 0
    self._handle_recording()
```
-/

/-- A chunk qualifies for the debounce counter when its threshold level
strictly exceeds the configured threshold, or the threshold is zero. -/
def qualifies (threshold lvl : ℚ) : Prop :=
  threshold < lvl ∨ threshold = 0

instance (threshold lvl : ℚ) : Decidable (qualifies threshold lvl) := by
  unfold qualifies; infer_instance

/-- One idle-loop debounce tick: returns the new counter and whether the
transition to Recording fired on this tick (in which case the counter has
been reset to 0). -/
def debounceStep (threshold lvl : ℚ) (counter : Nat) : Nat × Bool :=
  let c := if qualifies threshold lvl then counter + 1 else 0
  if 2 ≤ c then (0, true) else (c, false)

/-- The debounce trigger trace of the idle loop over a list of chunk levels. -/
def debounceRun (threshold : ℚ) (counter : Nat) : List ℚ → List Bool
  | [] => []
  | lvl :: rest =>
      let s := debounceStep threshold lvl counter
      s.2 :: debounceRun threshold s.1 rest

/-! ## Idle-loop UI bar cadence — `engine.py` lines 120–126

```
if peak(samples) == 0:
    _safe_call(self.hooks.set_bar, 1)
elif counter >= 6:
    _safe_call(self.hooks.set_bar, level_ui_scale(samples))
    counter = 0
counter += 1
```
-/

/-- A level signal emitted to the presentation hook on an idle tick:
either the constant `1` (zero peak) or the `level_ui_scale` of the chunk. -/
inductive BarEmit
  | one
  | scale
deriving DecidableEq, Repr

/-- One idle tick of the UI-bar cadence logic: input is the peak of the chunk;
returns the new cadence counter and the emission (if any). -/
def idleBarStep (counter : Nat) (pk : ℤ) : Nat × Option BarEmit :=
  if pk = 0 then (counter + 1, some BarEmit.one)
  else if 6 ≤ counter then (1, some BarEmit.scale)
  else (counter + 1, none)

/-- Idle UI-bar emission trace over a list of chunk peaks. -/
def idleBarRun (counter : Nat) : List ℤ → List (Option BarEmit)
  | [] => []
  | pk :: rest =>
      let s := idleBarStep counter pk
      s.2 :: idleBarRun s.1 rest

/-! ## Recording loop — `engine.py` lines 163–185

```
timed_out = False
while quiet_chunks < silence_needed and not self._stop.is_set():
    if total_chunks > timeout_needed:
        timed_out = True
        ...
    raw, samples = self._record_rectime_samples()
    if not timed_out:
        chunks.append(raw)
    ...
    lvl = level_ui_value(samples)
    if lvl < self.cfg.audio.record_threshold and self.cfg.audio.record_threshold != 0:
        quiet_chunks += 1
    else:
        quiet_chunks = 0
    total_chunks += 1
```

The input of a tick is the raw chunk read from the stream (abstract payload of
type `α`) paired with its `level_ui_value`.  The external stop request is
modelled as exhaustion of the input list. -/

/-- The mutable state of the recording loop. -/
structure RecState (α : Type _) where
  quietChunks : Nat
  totalChunks : Nat
  timedOut : Bool
  chunks : List α
deriving DecidableEq, Repr

/-- State at entry to the recording loop. -/
def recInit {α : Type _} : RecState α :=
  { quietChunks := 0, totalChunks := 0, timedOut := false, chunks := [] }

/-- The quiet-chunk counter update for one chunk level. -/
def quietUpdate (threshold : ℚ) (quietChunks : Nat) (lvl : ℚ) : Nat :=
  if lvl < threshold ∧ threshold ≠ 0 then quietChunks + 1 else 0

/-- One body iteration of the recording loop. -/
def recTick {α : Type _} (threshold : ℚ) (timeoutNeeded : Nat)
    (s : RecState α) (inp : α × ℚ) : RecState α :=
  let timedOut := s.timedOut || decide (timeoutNeeded < s.totalChunks)
  { quietChunks := quietUpdate threshold s.quietChunks inp.2
    totalChunks := s.totalChunks + 1
    timedOut := timedOut
    chunks := if timedOut then s.chunks else s.chunks ++ [inp.1] }

/-- The recording loop: the guard `quiet_chunks < silence_needed` is
checked before each tick; running out of inputs models the external stop
request. -/
def recRun {α : Type _} (threshold : ℚ) (silenceNeeded timeoutNeeded : Nat)
    (s : RecState α) : List (α × ℚ) → RecState α
  | [] => s
  | inp :: rest =>
      if silenceNeeded ≤ s.quietChunks then s
      else recRun threshold silenceNeeded timeoutNeeded
        (recTick threshold timeoutNeeded s inp) rest

/-- Number of ticks the recording loop executes, written only in terms of
the quiet-chunk counter and the input levels (the timeout machinery does
not appear: used to show the timeout never ends the loop). -/
def recTicks (threshold : ℚ) (silenceNeeded : Nat) (quietChunks : Nat) :
    List ℚ → Nat
  | [] => 0
  | lvl :: rest =>
      if silenceNeeded ≤ quietChunks then 0
      else recTicks threshold silenceNeeded
        (quietUpdate threshold quietChunks lvl) rest + 1

/-! ## Upload destinations — `src/voxcall/upload/`

Each upload method is modelled as the list of network requests it issues,
given its configuration fields and (where relevant) the response of the server.
Python truthiness of a string is emptiness; `str.strip()` is `String.trim`.
-/

/-- A network request issued by `BcfyClient.upload_mp3`: the metadata POST
or the file PUT to a returned upload URL. -/
inductive BcfyReq
  | post
  | put (url : String)
deriving DecidableEq, Repr

/-- `BcfyClient.upload_mp3` (`broadcastify.py` lines 33–75), as the list
of network requests it issues.  `postStatus`/`postBody` form the server
response to the metadata POST.  The skip check is `if not self.api_key`
(Python truthiness: the untrimmed string is empty).  The body is split on
single spaces; `resp[1]` on a one-token body raises `IndexError`, so no
PUT is issued there. -/
def bcfyUploadRequests (apiKey : String) (postStatus : Nat) (postBody : String) :
    List BcfyReq :=
  if apiKey = "" then []
  else
    BcfyReq.post ::
      (if postStatus ≠ 200 then []
       else
         let resp := pySplitSpace postBody
         if resp.get? 0 ≠ some ("0") then []
         else
           match resp.get? 1 with
           | some url => [BcfyReq.put url]
           | none => [])

/-- `RdioClient.upload` (`rdio.py` lines 18–43): whether the POST request
is issued.  All four fields are trimmed and the upload is skipped when any
trimmed field is empty. -/
def rdioIssuesRequest (apiUrl apiKey system talkgroup : String) : Bool :=
  pyStrip apiUrl ≠ "" && pyStrip apiKey ≠ "" &&
    pyStrip system ≠ "" && pyStrip talkgroup ≠ ""

/-! ### Python `float(str)` — needed for the OpenMHz frequency conversion

`openmhz.py` line 22 runs `float(self.freq_mhz)` before any network
object is built; when the string does not parse, the ValueError
propagates and no request is ever issued.  The grammar below models
CPython float-string acceptance on ASCII input (the config fields):
optional surrounding whitespace, underscores only between digits,
an optional sign, then a decimal literal with optional fraction and
exponent, or `inf`/`infinity`/`nan` case-insensitively.  (Unicode
decimal digits and exotic Unicode whitespace are outside the model.) -/

/-- Whitespace stripped by Python `float(str)` (ASCII range: the
`str.strip()` set plus the file/group/record/unit separators and NEL). -/
def isPyFloatSpace (c : Char) : Bool :=
  isPySpace c || c = '\x1c' || c = '\x1d' || c = '\x1e' || c = '\x1f' || c = '\x85'

/-- Underscore placement rule of Python numeric strings: every
underscore must be immediately preceded and followed by an ASCII digit.
The first argument is the previous character. -/
def underscoresOk : Option Char → List Char → Bool
  | _, [] => true
  | prev, c :: rest =>
      if c = '_' then
        (match prev with
         | some p => p.isDigit
         | none => false) &&
        (match rest with
         | d :: _ => d.isDigit
         | [] => false) &&
        underscoresOk (some c) rest
      else underscoresOk (some c) rest

/-- Consume one optional leading sign. -/
def dropSign : List Char → List Char
  | c :: rest => if c = '+' || c = '-' then rest else c :: rest
  | [] => []

/-- Count the leading ASCII digits and return the remainder. -/
def spanDigits : List Char → Nat × List Char
  | [] => (0, [])
  | c :: rest =>
      if c.isDigit then
        let s := spanDigits rest
        (s.1 + 1, s.2)
      else (0, c :: rest)

/-- After the mantissa, the remainder must be empty or a complete
exponent: `e`/`E`, an optional sign, and at least one digit. -/
def expTailOk : List Char → Bool
  | [] => true
  | c :: rest =>
      if c = 'e' || c = 'E' then
        let s := spanDigits (dropSign rest)
        decide (0 < s.1) && decide (s.2 = [])
      else false

/-- A Python float literal after sign removal: digits with an optional
fraction, or a fraction alone, at least one digit overall, then an
optional exponent. -/
def floatNumberOk (l : List Char) : Bool :=
  let s1 := spanDigits l
  match s1.2 with
  | '.' :: r2 =>
      let s2 := spanDigits r2
      decide (0 < s1.1 + s2.1) && expTailOk s2.2
  | r1 => decide (0 < s1.1) && expTailOk r1

/-- ASCII lowercasing for the special float names. -/
def asciiLower (c : Char) : Char :=
  if 'A' ≤ c ∧ c ≤ 'Z' then Char.ofNat (c.toNat + 32) else c

/-- The special float names `inf`, `infinity`, `nan`, case-insensitive. -/
def specialFloatOk (l : List Char) : Bool :=
  let low := l.map asciiLower
  decide (low = ("inf").data) || decide (low = ("infinity").data) ||
    decide (low = ("nan").data)

/-- Whether Python `float(s)` succeeds on an ASCII string: strip
surrounding whitespace, validate and drop underscores, consume one
optional sign, then accept a float literal or a special name. -/
def pyFloatParses (s : String) : Bool :=
  let l0 := ((s.data.dropWhile fun c => isPyFloatSpace c).reverse.dropWhile
      fun c => isPyFloatSpace c).reverse
  underscoresOk none l0 &&
    (let l2 := dropSign (l0.filter fun c => ¬ c = '_')
     specialFloatOk l2 || floatNumberOk l2)

/-- `OpenMHzClient.upload` (`openmhz.py` lines 17–29): whether the POST
request is issued.  Line 18 checks Python truthiness of the four
untrimmed fields and returns False when any is empty; line 22 then runs
`float(self.freq_mhz)` before the pool manager and the request are built,
so a frequency string that does not parse raises ValueError and no
request is issued.  (The audio-file read at line 27 is assumed to
succeed: the engine creates the file before fan-out.) -/
def openmhzIssuesRequest (apiKey shortName tgid freqMhz : String) : Bool :=
  (apiKey ≠ "" && shortName ≠ "" && tgid ≠ "" && freqMhz ≠ "") &&
    pyFloatParses freqMhz

/-- Whether `BcfyClient.upload_mp3` issues any network request. -/
def bcfyIssuesRequest (apiKey : String) (postStatus : Nat) (postBody : String) : Bool :=
  bcfyUploadRequests apiKey postStatus postBody ≠ []

/-! ## Level normalization — `webui/controller.py` lines 121–140

```
def _db_to_percent(self, db):
    clipped = max(self.DB_MIN, min(self.DB_MAX, db))
    pct = int(round((clipped - self.DB_MIN) / (self.DB_MAX - self.DB_MIN) * 100.0))
    return max(0, min(100, pct))

def _normalize_level(self, v):
    ...
    if 0.0 <= raw <= 1.5: pct = int(round(raw * 100.0)); return max(0, min(100, pct)), None
    if raw < 0.0: return self._db_to_percent(raw), raw
    pct = int(round(raw)); return max(0, min(100, pct)), None
```
-/

/-- `DB_MIN` from `VoxCallController`. -/
def DB_MIN : ℚ := -80

/-- `DB_MAX` from `VoxCallController`. -/
def DB_MAX : ℚ := 0

/-- `VoxCallController._db_to_percent`. -/
def dbToPercent (db : ℚ) : ℤ :=
  let clipped := max DB_MIN (min DB_MAX db)
  let pct := pyRound ((clipped - DB_MIN) / (DB_MAX - DB_MIN) * 100)
  max 0 (min 100 pct)

/-- `VoxCallController._normalize_level` on a numeric input: the
percentage and the optional dB figure. -/
def normalizeLevel (v : ℚ) : ℤ × Option ℚ :=
  if 0 ≤ v ∧ v ≤ 3/2 then (max 0 (min 100 (pyRound (v * 100))), none)
  else if v < 0 then (dbToPercent v, some v)
  else (max 0 (min 100 (pyRound v)), none)

/-- Spec-side dB mapping ("a negative value is a decibel figure linearly
mapped from [−80, 0] dB to [0,100]", clamping into [−80, 0] first). -/
def specDbMap (v : ℚ) : ℤ :=
  let c := max (-80) (min 0 v)
  pyRound ((c - (-80)) / (0 - (-80)) * 100)

/-! ## Cleanup task — `src/voxcall/cleanup.py`

The filesystem is a set of file paths (a `List String` used as a set,
removal removes every occurrence).  The function returns the final
filesystem and the ordered trace of actions it performed. -/

/-- An observable action of `cleanup_audio_files`. -/
inductive FsAction
  | mkdirP (dir : String)
  | copy (src dst : String)
  | sleep (seconds : Nat)
  | removeOk (path : String)
  | removeMissing (path : String)
deriving DecidableEq, Repr

/-- `os.remove`: errors (with `FileNotFoundError`) when the path does not
exist, otherwise removes it. -/
def osRemove (p : String) (fs : List String) : Except Unit (List String) :=
  if p ∈ fs then Except.ok (fs.filter (fun q => ¬ q = p)) else Except.error ()

/-- The `try: os.remove(p) except FileNotFoundError: pass` block of
`cleanup.py` lines 40–44: a missing file is swallowed. -/
def removeSwallowMissing (p : String) (fs : List String) :
    List String × FsAction :=
  match osRemove p fs with
  | Except.ok fs' => (fs', FsAction.removeOk p)
  | Except.error _ => (fs, FsAction.removeMissing p)

/-- `cleanup_audio_files` (`cleanup.py` lines 11–46), acting on a file
stem (the WAV path without extension): archive copy when enabled, settle
delay, then deletion of the MP3 and M4A artifacts. -/
def cleanupAudioFiles (stem : String) (saveAudio : Bool) (archiveDir : String)
    (fs : List String) : List String × List FsAction :=
  let mp3 := stem ++ ".mp3"
  let m4a := stem ++ ".m4a"
  let destDir := if archiveDir = "" then "audiosave" else archiveDir
  let afterArchive :=
    if saveAudio then
      if mp3 ∈ fs then
        ((destDir ++ "/" ++ mp3) :: fs,
         [FsAction.mkdirP destDir, FsAction.copy mp3 (destDir ++ "/" ++ mp3)])
      else (fs, [FsAction.mkdirP destDir])
    else (fs, [])
  let afterSleep := (afterArchive.1, afterArchive.2 ++ [FsAction.sleep 10])
  let r1 := removeSwallowMissing mp3 afterSleep.1
  let r2 := removeSwallowMissing m4a r1.1
  (r2.1, afterSleep.2 ++ [r1.2, r2.2])

/-! ## Helper lemmas -/

theorem peak_nil : peak [] = 0 := rfl

theorem peak_cons (s : ℤ) (t : List ℤ) :
    peak (s :: t) = (t.map int16Abs).foldl max (int16Abs s) := rfl

theorem foldl_max_eq_max_foldr (l : List ℤ) :
    ∀ a : ℤ, 0 ≤ a → (∀ x ∈ l, 0 ≤ x) →
      l.foldl max a = max a (l.foldr max 0) := by
  induction l with
  | nil =>
      intro a ha _
      simp [max_eq_left ha]
  | cons x t ih =>
      intro a ha h
      have hx : 0 ≤ x := h x (List.mem_cons_self x t)
      have ht : ∀ y ∈ t, 0 ≤ y := fun y hy => h y (List.mem_cons_of_mem x hy)
      simp only [List.foldl_cons, List.foldr_cons]
      rw [ih (max a x) (le_max_of_le_left ha) ht, max_assoc]

theorem specMaxAbs_cons (s : ℤ) (t : List ℤ) :
    specMaxAbs (s :: t) = max |s| (specMaxAbs t) := rfl

theorem specMaxAbs_nonneg (l : List ℤ) : 0 ≤ specMaxAbs l := by
  induction l with
  | nil => exact le_refl 0
  | cons s t ih => exact le_trans ih (le_max_right _ _)

theorem specMaxAbs_le (l : List ℤ) (h : ∀ x ∈ l, |x| ≤ 32767) :
    specMaxAbs l ≤ 32767 := by
  induction l with
  | nil => norm_num [specMaxAbs]
  | cons s t ih =>
      rw [specMaxAbs_cons]
      exact max_le (h s (List.mem_cons_self s t))
        (ih fun x hx => h x (List.mem_cons_of_mem s hx))

/-! ## C1 — trailing-silence trim -/

/-- C1. Trailing-silence trim: when the finalized buffer holds more than
`silenceNeeded` chunks, the trim keeps exactly the first
`length − silenceNeeded` chunks in order (dropping the last `silenceNeeded`);
a buffer of at most `silenceNeeded` chunks is left unchanged.  The last
conjunct shows the engine value `silence_needed` is always at least 1, so the
`1 ≤ silenceNeeded` hypothesis covers every session. -/
theorem trailing_silence_trim_correct {α : Type _} (silenceNeeded : Nat)
    (hsn : 1 ≤ silenceNeeded) (chunks : List α) :
    (silenceNeeded < chunks.length →
       trimTrailingSilence silenceNeeded chunks =
         chunks.take (chunks.length - silenceNeeded) ∧
       (trimTrailingSilence silenceNeeded chunks).length =
         chunks.length - silenceNeeded) ∧
    (chunks.length ≤ silenceNeeded →
       trimTrailingSilence silenceNeeded chunks = chunks) ∧
    (∀ voxSilenceTime rectime : ℚ, 1 ≤ silenceNeededOf voxSilenceTime rectime) := by
  refine ⟨?_, ?_, ?_⟩
  · intro h
    have hne : silenceNeeded ≠ 0 := by omega
    constructor
    · simp [trimTrailingSilence, pySliceDropLast, h, hne]
    · simp [trimTrailingSilence, pySliceDropLast, h, hne]
  · intro h
    have : ¬ silenceNeeded < chunks.length := by omega
    simp [trimTrailingSilence, this]
  · intro vs rt
    exact le_max_left 1 _

/-- Witness for C1 at a concrete buffer. -/
theorem trailing_silence_trim_correct_witness :
    trimTrailingSilence 2 [10, 20, 30] = [10] ∧
    trimTrailingSilence 2 [10, 20] = [10, 20] := by
  have h1 := (trailing_silence_trim_correct (α := Nat) 2 (by norm_num) [10, 20, 30]).1
    (by norm_num)
  have h2 := (trailing_silence_trim_correct (α := Nat) 2 (by norm_num) [10, 20]).2.1
    (by norm_num)
  exact ⟨by simpa using h1.1, h2⟩

/-! ## C2 — idle-loop debounce -/

/-- C2. Debounce behavior of the idle loop: a non-qualifying chunk resets
the counter and never triggers; a qualifying chunk increments it; the
transition fires exactly when the counter reaches 2 and resets it to 0;
two consecutive qualifying chunks always produce a trigger, while a
qualifying chunk right after a non-qualifying one never does. -/
theorem debounce_correct (threshold : ℚ) :
    (∀ counter lvl, ¬ qualifies threshold lvl →
        debounceStep threshold lvl counter = (0, false)) ∧
    (∀ lvl, qualifies threshold lvl →
        debounceStep threshold lvl 0 = (1, false)) ∧
    (∀ counter lvl, qualifies threshold lvl → 1 ≤ counter →
        debounceStep threshold lvl counter = (0, true)) ∧
    (∀ counter l₁ l₂, qualifies threshold l₁ → qualifies threshold l₂ →
        (debounceStep threshold l₁ counter).2 = true ∨
        (debounceStep threshold l₂ (debounceStep threshold l₁ counter).1).2 = true) ∧
    (∀ counter lnq lq, ¬ qualifies threshold lnq → qualifies threshold lq →
        debounceStep threshold lq (debounceStep threshold lnq counter).1 = (1, false)) := by
  have hstep_nq : ∀ counter lvl, ¬ qualifies threshold lvl →
      debounceStep threshold lvl counter = (0, false) := by
    intro counter lvl h
    simp [debounceStep, h]
  have hstep_q0 : ∀ lvl, qualifies threshold lvl →
      debounceStep threshold lvl 0 = (1, false) := by
    intro lvl h
    simp [debounceStep, h]
  have hstep_q1 : ∀ counter lvl, qualifies threshold lvl → 1 ≤ counter →
      debounceStep threshold lvl counter = (0, true) := by
    intro counter lvl h hc
    simp only [debounceStep, if_pos h]
    rw [if_pos (by omega)]
  refine ⟨hstep_nq, hstep_q0, hstep_q1, ?_, ?_⟩
  · intro counter l₁ l₂ h₁ h₂
    rcases Nat.eq_zero_or_pos counter with hc | hc
    · right
      rw [hc, hstep_q0 l₁ h₁]
      rw [hstep_q1 1 l₂ h₂ (by norm_num)]
    · left
      rw [hstep_q1 counter l₁ h₁ hc]
  · intro counter lnq lq hnq hq
    rw [hstep_nq counter lnq hnq]
    exact hstep_q0 lq hq

/-- Witness for C2 at threshold 50 with levels 60 (qualifying) and 40
(non-qualifying). -/
theorem debounce_correct_witness :
    debounceStep 50 60 0 = (1, false) ∧
    debounceStep 50 60 1 = (0, true) ∧
    debounceStep 50 60 (debounceStep 50 40 7).1 = (1, false) := by
  have hq : qualifies 50 60 := Or.inl (by norm_num)
  have hnq : ¬ qualifies 50 40 := by
    intro h
    rcases h with h | h <;> norm_num at h
  refine ⟨(debounce_correct 50).2.1 60 hq, ?_, ?_⟩
  · exact (debounce_correct 50).2.2.1 1 60 hq (by norm_num)
  · exact (debounce_correct 50).2.2.2.2 7 40 60 hnq hq

/-! ## C5 — peak of a PCM chunk -/

/-- C5 counterexample: on the chunk holding the single sample −32768
(a legal 16-bit value), the wrapping numpy absolute value makes `peak`
return −32768, which is negative, not the maximum absolute sample value
32768 claimed by the spec. -/
theorem peak_neg_counterexample :
    peak [(-32768 : ℤ)] = -32768 ∧
    peak [(-32768 : ℤ)] < 0 ∧
    specMaxAbs [(-32768 : ℤ)] = 32768 := by
  refine ⟨rfl, by norm_num [peak_cons, int16Abs], by norm_num [specMaxAbs_cons, specMaxAbs]⟩

/-- C5 amended: for every chunk whose samples avoid the wrapping value
−32768 (all in [−32767, 32767]), `peak` equals the maximum absolute
sample value and lies in [0, 32767] ⊆ [0, 32768]; the empty chunk has
peak 0. -/
theorem peak_max_abs (samples : List ℤ)
    (h : ∀ s ∈ samples, -32767 ≤ s ∧ s ≤ 32767) :
    peak samples = specMaxAbs samples ∧
    0 ≤ peak samples ∧ peak samples ≤ 32767 ∧ peak [] = 0 := by
  have habs : ∀ s ∈ samples, |s| ≤ 32767 := by
    intro s hs
    exact abs_le.mpr ⟨by linarith [(h s hs).1], (h s hs).2⟩
  have hmap : samples.map int16Abs = samples.map (fun s => |s|) := by
    apply List.map_congr_left
    intro s hs
    have : s ≠ -32768 := by
      have := (h s hs).1
      intro he
      rw [he] at this
      norm_num at this
    simp [int16Abs, this]
  have hpeak : peak samples = specMaxAbs samples := by
    cases samples with
    | nil => rfl
    | cons s t =>
        have hs : 0 ≤ |s| := abs_nonneg s
        have ht : ∀ x ∈ t.map (fun s => |s|), 0 ≤ x := by
          intro x hx
          rcases List.mem_map.mp hx with ⟨y, _, rfl⟩
          exact abs_nonneg y
        have hmcons := hmap
        simp only [List.map_cons] at hmcons
        rw [peak_cons, List.cons.injEq] at *
        rw [hmcons.1, hmcons.2]
        rw [foldl_max_eq_max_foldr (t.map (fun s => |s|)) |s| hs ht]
        rfl
  refine ⟨hpeak, ?_, ?_, rfl⟩
  · rw [hpeak]
    exact specMaxAbs_nonneg samples
  · rw [hpeak]
    exact specMaxAbs_le samples habs

/-- Witness for C5 (amended) at a concrete chunk. -/
theorem peak_max_abs_witness :
    peak [(-5 : ℤ), 3, -7] = 7 ∧ (0 : ℤ) ≤ peak [(-5 : ℤ), 3, -7] := by
  have h := peak_max_abs [(-5 : ℤ), 3, -7] (by norm_num)
  refine ⟨?_, h.2.1⟩
  rw [h.1]
  norm_num [specMaxAbs_cons, specMaxAbs]

/-! ## C3 — timeout is sticky and truncates capture -/

theorem recTick_timedOut {α : Type _} (threshold : ℚ) (timeoutNeeded : Nat)
    (s : RecState α) (inp : α × ℚ)
    (h : s.timedOut = true ∨ timeoutNeeded < s.totalChunks) :
    (recTick threshold timeoutNeeded s inp).timedOut = true ∧
    (recTick threshold timeoutNeeded s inp).chunks = s.chunks := by
  have hb : (s.timedOut || decide (timeoutNeeded < s.totalChunks)) = true := by
    rcases h with h | h
    · simp [h]
    · simp [h]
  constructor
  · simp [recTick, hb]
  · simp [recTick, hb]

theorem recRun_sticky {α : Type _} (threshold : ℚ) (silenceNeeded timeoutNeeded : Nat) :
    ∀ (inputs : List (α × ℚ)) (s : RecState α), s.timedOut = true →
      (recRun threshold silenceNeeded timeoutNeeded s inputs).timedOut = true ∧
      (recRun threshold silenceNeeded timeoutNeeded s inputs).chunks = s.chunks := by
  intro inputs
  induction inputs with
  | nil =>
      intro s hs
      exact ⟨hs, rfl⟩
  | cons inp rest ih =>
      intro s hs
      by_cases hq : silenceNeeded ≤ s.quietChunks
      · simp [recRun, hq, hs]
      · have htick := recTick_timedOut threshold timeoutNeeded s inp (Or.inl hs)
        have hnext := ih (recTick threshold timeoutNeeded s inp) htick.1
        rw [recRun, if_neg hq]
        exact ⟨hnext.1, hnext.2.trans htick.2⟩

theorem recRun_ticks {α : Type _} (threshold : ℚ) (silenceNeeded timeoutNeeded : Nat) :
    ∀ (inputs : List (α × ℚ)) (s : RecState α),
      (recRun threshold silenceNeeded timeoutNeeded s inputs).totalChunks =
        s.totalChunks +
          recTicks threshold silenceNeeded s.quietChunks (inputs.map Prod.snd) := by
  intro inputs
  induction inputs with
  | nil =>
      intro s
      simp [recRun, recTicks]
  | cons inp rest ih =>
      intro s
      by_cases hq : silenceNeeded ≤ s.quietChunks
      · simp [recRun, recTicks, hq]
      · rw [recRun, if_neg hq]
        rw [ih (recTick threshold timeoutNeeded s inp)]
        simp only [List.map_cons, recTicks, if_neg hq]
        have : (recTick threshold timeoutNeeded s inp).quietChunks =
            quietUpdate threshold s.quietChunks inp.2 := rfl
        rw [this]
        have : (recTick threshold timeoutNeeded s inp).totalChunks =
            s.totalChunks + 1 := rfl
        rw [this]
        omega

/-- C3. Timeout is sticky and truncates capture: (1) on any tick whose
state already has the flag set or whose total-chunk count exceeds
`timeoutNeeded`, the tick leaves the flag set and appends nothing to the
buffer; (2) over the rest of the session, a set flag stays set and the
buffer never grows again; (3) the number of ticks the loop executes is
`recTicks`, a function only of the threshold, `silenceNeeded`, the
quiet-counter and the input levels — the timeout machinery never ends the
loop, which runs until the silence exit or the external stop (input
exhaustion). -/
theorem timeout_sticky_truncates {α : Type _} (threshold : ℚ)
    (silenceNeeded timeoutNeeded : Nat) :
    (∀ (s : RecState α) (inp : α × ℚ),
       s.timedOut = true ∨ timeoutNeeded < s.totalChunks →
       (recTick threshold timeoutNeeded s inp).timedOut = true ∧
       (recTick threshold timeoutNeeded s inp).chunks = s.chunks) ∧
    (∀ (inputs : List (α × ℚ)) (s : RecState α), s.timedOut = true →
       (recRun threshold silenceNeeded timeoutNeeded s inputs).timedOut = true ∧
       (recRun threshold silenceNeeded timeoutNeeded s inputs).chunks = s.chunks) ∧
    (∀ (inputs : List (α × ℚ)) (s : RecState α),
       (recRun threshold silenceNeeded timeoutNeeded s inputs).totalChunks =
         s.totalChunks +
           recTicks threshold silenceNeeded s.quietChunks (inputs.map Prod.snd)) :=
  ⟨fun s inp h => recTick_timedOut threshold timeoutNeeded s inp h,
   recRun_sticky threshold silenceNeeded timeoutNeeded,
   recRun_ticks threshold silenceNeeded timeoutNeeded⟩

/-- Witness for C3: a session whose third tick crosses the timeout
boundary; the buffer freezes at two chunks while the loop keeps ticking. -/
theorem timeout_sticky_truncates_witness :
    (recRun (75 : ℚ) 5 1 (recInit (α := Nat))
        [(1, 80), (2, 80), (3, 80), (4, 80)]).chunks = [1, 2] ∧
    (recRun (75 : ℚ) 5 1 (recInit (α := Nat))
        [(1, 80), (2, 80), (3, 80), (4, 80)]).totalChunks = 4 ∧
    (recTick (75 : ℚ) 1
        { quietChunks := 0, totalChunks := 2, timedOut := false,
          chunks := [1, 2] } ((3 : Nat), (80 : ℚ))).chunks = [1, 2] := by
  have h := (timeout_sticky_truncates (α := Nat) (75 : ℚ) 5 1).1
    { quietChunks := 0, totalChunks := 2, timedOut := false, chunks := [1, 2] }
    ((3 : Nat), (80 : ℚ)) (Or.inr (by norm_num))
  refine ⟨by decide, ?_, h.2⟩
  have h2 := (timeout_sticky_truncates (α := Nat) (75 : ℚ) 5 1).2.2
    [(1, 80), (2, 80), (3, 80), (4, 80)] (recInit (α := Nat))
  rw [h2]
  decide

/-! ## C10 — zero threshold disables the silence exit -/

theorem quietUpdate_zero (quietChunks : Nat) (lvl : ℚ) :
    quietUpdate 0 quietChunks lvl = 0 := by
  simp [quietUpdate]

theorem recRun_zero_threshold {α : Type _} (silenceNeeded timeoutNeeded : Nat)
    (hsn : 1 ≤ silenceNeeded) :
    ∀ (inputs : List (α × ℚ)) (s : RecState α), s.quietChunks = 0 →
      (recRun 0 silenceNeeded timeoutNeeded s inputs).totalChunks =
        s.totalChunks + inputs.length ∧
      (recRun 0 silenceNeeded timeoutNeeded s inputs).quietChunks = 0 := by
  intro inputs
  induction inputs with
  | nil =>
      intro s hs
      exact ⟨by simp [recRun], hs⟩
  | cons inp rest ih =>
      intro s hs
      have hq : ¬ silenceNeeded ≤ s.quietChunks := by omega
      rw [recRun, if_neg hq]
      have hq0 : (recTick 0 timeoutNeeded s inp).quietChunks = 0 :=
        quietUpdate_zero s.quietChunks inp.2
      have := ih (recTick 0 timeoutNeeded s inp) hq0
      refine ⟨?_, this.2⟩
      rw [this.1]
      have ht : (recTick 0 timeoutNeeded s inp).totalChunks = s.totalChunks + 1 := rfl
      rw [ht]
      simp [Nat.add_comm, Nat.add_assoc, Nat.add_left_comm]

/-- C10 (implicit). With record threshold 0, every recording-loop tick
resets the quiet counter to 0, so the silence exit `quietChunks ≥
silenceNeeded` (with `silenceNeeded ≥ 1`) never fires: the loop consumes
its entire input stream — it ends only on the external stop — and the
timeout value has no bearing on how long it runs. -/
theorem zero_threshold_never_exits {α : Type _} (silenceNeeded timeoutNeeded : Nat)
    (hsn : 1 ≤ silenceNeeded) (inputs : List (α × ℚ)) :
    (∀ (quietChunks : Nat) (lvl : ℚ), quietUpdate 0 quietChunks lvl = 0) ∧
    (recRun 0 silenceNeeded timeoutNeeded (recInit (α := α)) inputs).totalChunks =
      inputs.length ∧
    (recRun 0 silenceNeeded timeoutNeeded (recInit (α := α)) inputs).quietChunks = 0 := by
  have h := recRun_zero_threshold (α := α) silenceNeeded timeoutNeeded hsn inputs
    (recInit (α := α)) rfl
  exact ⟨quietUpdate_zero, by simpa [recInit] using h.1, h.2⟩

/-- Witness for C10: with threshold 0, a stream of five chunks (quiet or
loud) is fully consumed and the quiet counter remains 0. -/
theorem zero_threshold_never_exits_witness :
    (recRun 0 3 2 (recInit (α := Nat))
        [(1, 0), (2, 0), (3, 90), (4, 0), (5, 0)]).totalChunks = 5 ∧
    (recRun 0 3 2 (recInit (α := Nat))
        [(1, 0), (2, 0), (3, 90), (4, 0), (5, 0)]).quietChunks = 0 := by
  have h := zero_threshold_never_exits (α := Nat) 3 2 (by norm_num)
    [(1, 0), (2, 0), (3, 90), (4, 0), (5, 0)]
  exact ⟨by simpa using h.2.1, h.2.2⟩

/-! ## C6 — idle UI-bar cadence -/

/-- C6 counterexample: starting from the initial cadence counter 0,
twelve loud chunks, one silent chunk, then a loud chunk produce scaleLevel
emissions on ticks 7 and 14 (0-based trace indices 6 and 13): consecutive
scaleLevel emissions 7 ticks apart, not 6 — the silent tick emitted `1`
immediately but also advanced the cadence counter without resetting it,
and the very first scaleLevel emission happens on the 7th tick. -/
theorem idle_bar_cadence_counterexample :
    idleBarRun 0 [5, 5, 5, 5, 5, 5, 5, 5, 5, 5, 5, 5, 0, 5] =
      [none, none, none, none, none, none, some BarEmit.scale,
       none, none, none, none, none, some BarEmit.one, some BarEmit.scale] ∧
    (14 : Nat) - 7 ≠ 6 := by
  refine ⟨?_, by norm_num⟩
  decide

theorem idleBarRun_replicate_scale (pk : ℤ) (hpk : ¬ pk = 0) :
    ∀ (n counter : Nat), 1 ≤ counter → counter ≤ 6 → ∀ i, i < n →
      ((idleBarRun counter (List.replicate n pk)).get? i =
          some (some BarEmit.scale) ↔ (counter + i) % 6 = 0) := by
  intro n
  induction n with
  | zero =>
      intro counter _ _ i hi
      exact absurd hi (Nat.not_lt_zero i)
  | succ m ih =>
      intro counter hc1 hc6 i hi
      rw [List.replicate_succ]
      by_cases h6 : 6 ≤ counter
      · have hceq : counter = 6 := by omega
        cases i with
        | zero =>
            simp [idleBarRun, idleBarStep, hpk, h6, hceq]
        | succ j =>
            have hj : j < m := by omega
            have := ih 1 (by norm_num) (by norm_num) j hj
            simp only [idleBarRun, idleBarStep, if_neg hpk, if_pos h6]
            rw [List.get?_cons_succ]
            rw [this, hceq]
            omega
      · have hlt : counter < 6 := by omega
        cases i with
        | zero =>
            simp only [idleBarRun, idleBarStep, if_neg hpk, if_neg h6]
            rw [List.get?_cons_zero]
            constructor
            · intro h
              exact absurd h (by simp)
            · intro h
              exact absurd h (by omega)
        | succ j =>
            have hj : j < m := by omega
            have := ih (counter + 1) (by omega) (by omega) j hj
            simp only [idleBarRun, idleBarStep, if_neg hpk, if_neg h6]
            rw [List.get?_cons_succ]
            rw [this]
            omega

/-- C6 amended: a zero-peak chunk always emits `1` immediately and
advances the cadence counter without resetting it; a nonzero-peak chunk
emits scaleLevel exactly when the counter has reached 6 (the counter then
resets); consequently, in an uninterrupted run of nonzero-peak ticks
started just after a scaleLevel emission (counter 1), scaleLevel is
emitted exactly on every 6th tick — but an interleaved zero-peak tick
advances the counter without emitting scaleLevel, deferring the next
scaleLevel emission past the 6th tick. -/
theorem idle_bar_cadence (pk : ℤ) :
    (∀ counter, pk = 0 → idleBarStep counter pk = (counter + 1, some BarEmit.one)) ∧
    (∀ counter, ¬ pk = 0 → 6 ≤ counter →
        idleBarStep counter pk = (1, some BarEmit.scale)) ∧
    (∀ counter, ¬ pk = 0 → counter < 6 →
        idleBarStep counter pk = (counter + 1, none)) ∧
    (∀ n i, ¬ pk = 0 → i < n →
        ((idleBarRun 1 (List.replicate n pk)).get? i =
            some (some BarEmit.scale) ↔ (i + 1) % 6 = 0)) := by
  refine ⟨?_, ?_, ?_, ?_⟩
  · intro counter h
    simp [idleBarStep, h]
  · intro counter h h6
    simp [idleBarStep, h, h6]
  · intro counter h h6
    have : ¬ 6 ≤ counter := by omega
    simp [idleBarStep, h, this]
  · intro n i hpk hi
    have := idleBarRun_replicate_scale pk hpk n 1 (by norm_num) (by norm_num) i hi
    rw [this]
    omega

/-- Witness for C6 (amended): six consecutive loud chunks after an
emission produce the next scaleLevel emission exactly on the 6th tick. -/
theorem idle_bar_cadence_witness :
    (idleBarRun 1 (List.replicate 6 (5 : ℤ))).get? 5 =
        some (some BarEmit.scale) ∧
    (idleBarRun 1 (List.replicate 6 (5 : ℤ))).get? 4 ≠
        some (some BarEmit.scale) ∧
    idleBarStep 3 (0 : ℤ) = (4, some BarEmit.one) := by
  refine ⟨?_, ?_, (idle_bar_cadence (0 : ℤ)).1 3 rfl⟩
  · exact ((idle_bar_cadence (5 : ℤ)).2.2.2 6 5 (by norm_num) (by norm_num)).mpr
      (by norm_num)
  · intro h
    have := ((idle_bar_cadence (5 : ℤ)).2.2.2 6 4 (by norm_num) (by norm_num)).mp h
    omega

/-! ## C4 — uniform upload skip rule -/

/-- C4 counterexample: a whitespace-only Broadcastify API key is blank
after trimming, yet `upload_mp3` checks only Python truthiness of the
untrimmed string and proceeds to issue network requests; OpenMHz likewise
issues its POST for a whitespace-only API key when the frequency string
parses as a float.  Only the Rdio-compatible client trims. -/
theorem skip_rule_counterexample :
    pyStrip (" ") = "" ∧
    bcfyUploadRequests (" ") 200 ("0 u") = [BcfyReq.post, BcfyReq.put ("u")] ∧
    openmhzIssuesRequest (" ") ("sys") ("100") ("154.1") = true := by
  refine ⟨by decide, by decide, by decide⟩

/-- C4 amended: each destination skips (issues no network request) when a
required field is empty, but only the Rdio-compatible sinks trim
whitespace first: Broadcastify issues its POST iff the untrimmed API key
is non-empty, and the Rdio-compatible sinks iff all four trimmed fields
are non-empty.  OpenMHz issues its POST iff all four untrimmed fields are
non-empty **and** the frequency string parses as a Python float: an empty
field is skipped gracefully, a non-parsing (e.g. whitespace-only)
frequency aborts with ValueError before any request, while a
whitespace-only API key, short-name or talkgroup id with a parseable
frequency is treated as configured and the upload proceeds. -/
theorem upload_skip_rules :
    (∀ (apiKey : String) (st : Nat) (body : String),
        bcfyIssuesRequest apiKey st body = true ↔ ¬ apiKey = "") ∧
    (∀ apiUrl apiKey system talkgroup : String,
        rdioIssuesRequest apiUrl apiKey system talkgroup = true ↔
          (¬ pyStrip apiUrl = "" ∧ ¬ pyStrip apiKey = "" ∧
           ¬ pyStrip system = "" ∧ ¬ pyStrip talkgroup = "")) ∧
    (∀ apiKey shortName tgid freqMhz : String,
        openmhzIssuesRequest apiKey shortName tgid freqMhz = true ↔
          (¬ apiKey = "" ∧ ¬ shortName = "" ∧ ¬ tgid = "" ∧ ¬ freqMhz = "" ∧
           pyFloatParses freqMhz = true)) := by
  refine ⟨?_, ?_, ?_⟩
  · intro apiKey st body
    by_cases h : apiKey = "" <;>
      simp [bcfyIssuesRequest, bcfyUploadRequests, h]
  · intro u k s t
    simp [rdioIssuesRequest, and_assoc]
  · intro k s t f
    simp [openmhzIssuesRequest, and_assoc]

/-- Witness for C4 (amended): empty fields are skipped by all three
clients; a whitespace-only frequency makes the OpenMHz float conversion
fail before any request; whitespace-only fields are otherwise skipped
only by the Rdio client. -/
theorem upload_skip_rules_witness :
    bcfyIssuesRequest ("") 200 ("0 u") = false ∧
    rdioIssuesRequest (" ") ("k") ("s") ("t") = false ∧
    openmhzIssuesRequest ("k") ("") ("100") ("154.1") = false ∧
    openmhzIssuesRequest ("k") ("sys") ("100") (" ") = false := by
  refine ⟨?_, ?_, ?_, ?_⟩
  · by_contra hc
    simp only [Bool.not_eq_false] at hc
    exact (upload_skip_rules.1 ("") 200 ("0 u")).mp hc rfl
  · by_contra hc
    simp only [Bool.not_eq_false] at hc
    have h := (upload_skip_rules.2.1 (" ") ("k") ("s") ("t")).mp hc
    exact h.1 (by decide)
  · by_contra hc
    simp only [Bool.not_eq_false] at hc
    have h := (upload_skip_rules.2.2 ("k") ("") ("100") ("154.1")).mp hc
    exact h.2.1 rfl
  · by_contra hc
    simp only [Bool.not_eq_false] at hc
    have h := (upload_skip_rules.2.2 ("k") ("sys") ("100") (" ")).mp hc
    exact absurd h.2.2.2.2 (by decide)

/-! ## C7 — Broadcastify two-phase protocol -/

/-- C7 counterexample: a POST response with status 201 (a 2xx status) and
body with first token literally "0" aborts the upload — the code tests
`status != 200`, not "not 2xx" — so no file PUT is issued although the
claim requires one. -/
theorem bcfy_two_phase_counterexample :
    (200 ≤ 201 ∧ 201 < 300) ∧
    (pySplitSpace ("0 u")).get? 0 = some ("0") ∧
    bcfyUploadRequests ("k") 201 ("0 u") = [BcfyReq.post] := by
  refine ⟨⟨by norm_num, by norm_num⟩, by decide, by decide⟩

/-- C7 amended: with a non-empty API key the upload always issues the
metadata POST first; any POST status other than exactly 200 (including
other 2xx codes) aborts with no file transfer; on status 200 the body is
split on spaces and the file PUT is issued iff the first token is
literally "0" **and a second token exists** (the PUT goes to that second
token; a body with first token "0" but no second token raises IndexError
and no PUT is issued). -/
theorem bcfy_two_phase (apiKey : String) (hk : ¬ apiKey = "") (st : Nat)
    (body : String) :
    (bcfyUploadRequests apiKey st body).get? 0 = some BcfyReq.post ∧
    (¬ st = 200 → bcfyUploadRequests apiKey st body = [BcfyReq.post]) ∧
    (∀ url, BcfyReq.put url ∈ bcfyUploadRequests apiKey st body ↔
        (st = 200 ∧ (pySplitSpace body).get? 0 = some ("0") ∧
         (pySplitSpace body).get? 1 = some url)) ∧
    (bcfyUploadRequests apiKey st body).length ≤ 2 := by
  refine ⟨?_, ?_, ?_, ?_⟩
  · simp [bcfyUploadRequests, hk]
  · intro h
    simp [bcfyUploadRequests, hk, h]
  · intro url
    by_cases hst : st = 200
    · by_cases h0 : (pySplitSpace body).get? 0 = some ("0")
      · cases hu : (pySplitSpace body).get? 1 with
        | none =>
            simp only [List.get?_eq_getElem?] at h0 hu
            simp [bcfyUploadRequests, hk, hst, h0, hu]
        | some u =>
            simp only [List.get?_eq_getElem?] at h0 hu
            simp only [bcfyUploadRequests, if_neg hk, hst]
            simp [h0, hu, eq_comm]
      · simp only [List.get?_eq_getElem?] at h0
        simp [bcfyUploadRequests, hk, hst, h0]
    · simp [bcfyUploadRequests, hk, hst]
  · by_cases hst : st = 200
    · by_cases h0 : (pySplitSpace body).get? 0 = some ("0")
      · cases hu : (pySplitSpace body).get? 1 with
        | none =>
            simp only [List.get?_eq_getElem?] at h0 hu
            simp [bcfyUploadRequests, hk, hst, h0, hu]
        | some u =>
            simp only [List.get?_eq_getElem?] at h0 hu
            simp [bcfyUploadRequests, hk, hst, h0, hu]
      · simp only [List.get?_eq_getElem?] at h0
        simp [bcfyUploadRequests, hk, hst, h0]
    · simp [bcfyUploadRequests, hk, hst]

/-- Witness for C7 (amended) on a status-200 response with body "0 u". -/
theorem bcfy_two_phase_witness :
    BcfyReq.put ("u") ∈ bcfyUploadRequests ("k") 200 ("0 u") ∧
    (bcfyUploadRequests ("k") 200 ("0 u")).get? 0 = some BcfyReq.post ∧
    bcfyUploadRequests ("k") 201 ("0 u") = [BcfyReq.post] := by
  have h := bcfy_two_phase ("k") (by decide) 200 ("0 u")
  have h2 := bcfy_two_phase ("k") (by decide) 201 ("0 u")
  exact ⟨(h.2.2.1 ("u")).mpr ⟨rfl, by decide, by decide⟩, h.1,
    h2.2.1 (by norm_num)⟩

/-! ## C8 — level normalization -/

theorem le_pyRound {n : ℤ} {q : ℚ} (h : (n : ℚ) ≤ q) : n ≤ pyRound q := by
  have hf : n ≤ ⌊q⌋ := Int.le_floor.mpr h
  unfold pyRound
  split_ifs <;> omega

theorem pyRound_le {n : ℤ} {q : ℚ} (h : q ≤ (n : ℚ)) : pyRound q ≤ n := by
  have hf : ⌊q⌋ ≤ n := by
    have h1 : ⌊q⌋ ≤ ⌊(n : ℚ)⌋ := Int.floor_le_floor h
    simpa using h1
  unfold pyRound
  split_ifs with h1 h2 h3
  · exact hf
  all_goals
    have hq2 : (⌊q⌋ : ℚ) + 1/2 ≤ q := by
      push_neg at h1
      linarith
  all_goals
    have hlt : ⌊q⌋ < n := by
      have hc : (⌊q⌋ : ℚ) < (n : ℚ) := by linarith
      exact_mod_cast hc
  all_goals omega

theorem dbToPercent_eq_specDbMap (v : ℚ) : dbToPercent v = specDbMap v := by
  unfold dbToPercent specDbMap DB_MIN DB_MAX
  have hc1 : (-80 : ℚ) ≤ max (-80 : ℚ) (min 0 v) := le_max_left _ _
  have hc2 : max (-80 : ℚ) (min 0 v) ≤ 0 :=
    max_le (by norm_num) (min_le_left _ _)
  have hq0 : (0 : ℚ) ≤ (max (-80 : ℚ) (min 0 v) - (-80)) / (0 - (-80)) * 100 :=
    mul_nonneg (div_nonneg (by linarith) (by norm_num)) (by norm_num)
  have hq100 : (max (-80 : ℚ) (min 0 v) - (-80)) / (0 - (-80)) * 100 ≤ 100 := by
    rw [div_mul_eq_mul_div, div_le_iff₀ (by norm_num : (0:ℚ) < 0 - (-80))]
    linarith
  have hr0 : (0 : ℤ) ≤ pyRound ((max (-80 : ℚ) (min 0 v) - (-80)) / (0 - (-80)) * 100) :=
    le_pyRound (by exact_mod_cast hq0)
  have hr100 : pyRound ((max (-80 : ℚ) (min 0 v) - (-80)) / (0 - (-80)) * 100) ≤ 100 :=
    pyRound_le (by exact_mod_cast hq100)
  dsimp only
  rw [min_eq_right hr100, max_eq_right hr0]

/-- C8. Level normalization contract of `_normalize_level`: a value in
[0, 1.5] is a fraction scaled ×100, rounded (Python round-half-to-even)
and clamped to [0,100]; a negative value is a dB figure clamped into
[−80, 0] and linearly mapped onto [0,100] (no output clamp is needed —
the clamp in the code is redundant there); any other value is rounded and
clamped to [0,100]. -/
theorem normalize_level_contract (v : ℚ) :
    (0 ≤ v ∧ v ≤ 3/2 →
       normalizeLevel v = (max 0 (min 100 (pyRound (v * 100))), none)) ∧
    (v < 0 → normalizeLevel v = (specDbMap v, some v)) ∧
    (3/2 < v → normalizeLevel v = (max 0 (min 100 (pyRound v)), none)) := by
  refine ⟨?_, ?_, ?_⟩
  · intro h
    simp [normalizeLevel, h]
  · intro h
    have h1 : ¬ (0 ≤ v ∧ v ≤ 3/2) := by
      intro hc
      linarith [hc.1]
    rw [normalizeLevel, if_neg h1, if_pos h, dbToPercent_eq_specDbMap]
  · intro h
    have h1 : ¬ (0 ≤ v ∧ v ≤ 3/2) := fun hc => absurd hc.2 (by linarith)
    have h2 : ¬ v < 0 := by linarith
    simp [normalizeLevel, h1, h2]

/-- Witness for C8 at a fraction, a dB value and a large percentage. -/
theorem normalize_level_contract_witness :
    normalizeLevel (1/2) = (50, none) ∧
    normalizeLevel (-40) = (specDbMap (-40), some (-40)) ∧
    normalizeLevel 250 = (100, none) := by
  have h1 := (normalize_level_contract (1/2)).1 ⟨by norm_num, by norm_num⟩
  have h2 := (normalize_level_contract (-40)).2.1 (by norm_num)
  have h3 := (normalize_level_contract 250).2.2 (by norm_num)
  refine ⟨?_, h2, ?_⟩
  · rw [h1]
    norm_num [pyRound, min_def, max_def]
  · rw [h3]
    norm_num [pyRound, min_def, max_def]

/-! ## C9 — cleanup task ordering and tolerance -/

theorem removeSwallowMissing_pos {p : String} {fs : List String} (h : p ∈ fs) :
    removeSwallowMissing p fs =
      (fs.filter (fun q => ¬ q = p), FsAction.removeOk p) := by
  simp [removeSwallowMissing, osRemove, h]

theorem removeSwallowMissing_neg {p : String} {fs : List String} (h : p ∉ fs) :
    removeSwallowMissing p fs = (fs, FsAction.removeMissing p) := by
  simp [removeSwallowMissing, osRemove, h]

theorem removeSwallowMissing_not_mem (p : String) (fs : List String) :
    p ∉ (removeSwallowMissing p fs).1 := by
  by_cases h : p ∈ fs
  · rw [removeSwallowMissing_pos h]
    simp
  · rw [removeSwallowMissing_neg h]
    exact h

theorem removeSwallowMissing_subset (p : String) (fs : List String) :
    (removeSwallowMissing p fs).1 ⊆ fs := by
  by_cases h : p ∈ fs
  · rw [removeSwallowMissing_pos h]
    exact fun a ha => (List.mem_filter.mp ha).1
  · rw [removeSwallowMissing_neg h]
    exact fun a ha => ha

/-- C9. Cleanup ordering and tolerance: with archiving enabled and the
MP3 present, the action trace is exactly — create the archive directory,
copy the MP3 into it, wait the 10-second settle delay, delete the MP3,
delete the M4A — so the archive copy precedes every deletion; and for any
initial filesystem and archive setting, the cleanup always completes with
both artifacts absent, a file already missing at delete time being
swallowed (`removeMissing`) rather than an error. -/
theorem cleanup_order_and_tolerance (stem dir : String) (fs : List String)
    (hmp3 : (stem ++ (".mp3")) ∈ fs) :
    (∃ rm2,
       (cleanupAudioFiles stem true dir fs).2 =
         [FsAction.mkdirP (if dir = "" then ("audiosave") else dir),
          FsAction.copy (stem ++ (".mp3"))
            ((if dir = "" then ("audiosave") else dir) ++ ("/") ++ (stem ++ (".mp3"))),
          FsAction.sleep 10,
          FsAction.removeOk (stem ++ (".mp3")), rm2] ∧
       (rm2 = FsAction.removeOk (stem ++ (".m4a")) ∨
        rm2 = FsAction.removeMissing (stem ++ (".m4a")))) ∧
    (∀ (saveAudio : Bool) (fs₀ : List String),
       (stem ++ (".mp3")) ∉ (cleanupAudioFiles stem saveAudio dir fs₀).1 ∧
       (stem ++ (".m4a")) ∉ (cleanupAudioFiles stem saveAudio dir fs₀).1) := by
  constructor
  · have hmem1 : (stem ++ (".mp3")) ∈
        ((if dir = "" then ("audiosave") else dir) ++ ("/") ++ (stem ++ (".mp3"))) :: fs :=
      List.mem_cons_of_mem _ hmp3
    by_cases hm4 : (stem ++ (".m4a")) ∈
        (((if dir = "" then ("audiosave") else dir) ++ ("/") ++ (stem ++ (".mp3"))) :: fs).filter
          (fun q => ¬ q = (stem ++ (".mp3")))
    · refine ⟨FsAction.removeOk (stem ++ (".m4a")), ?_, Or.inl rfl⟩
      simp only [cleanupAudioFiles, if_pos hmp3, if_pos trivial,
        removeSwallowMissing_pos hmem1, removeSwallowMissing_pos hm4]
      rfl
    · refine ⟨FsAction.removeMissing (stem ++ (".m4a")), ?_, Or.inr rfl⟩
      simp only [cleanupAudioFiles, if_pos hmp3, if_pos trivial,
        removeSwallowMissing_pos hmem1, removeSwallowMissing_neg hm4]
      rfl
  · intro saveAudio fs₀
    have key : ∀ X : List String,
        (stem ++ (".mp3")) ∉
          (removeSwallowMissing (stem ++ (".m4a"))
            (removeSwallowMissing (stem ++ (".mp3")) X).1).1 ∧
        (stem ++ (".m4a")) ∉
          (removeSwallowMissing (stem ++ (".m4a"))
            (removeSwallowMissing (stem ++ (".mp3")) X).1).1 := by
      intro X
      constructor
      · intro hmem
        exact removeSwallowMissing_not_mem (stem ++ (".mp3")) X
          (removeSwallowMissing_subset (stem ++ (".m4a")) _ hmem)
      · exact removeSwallowMissing_not_mem (stem ++ (".m4a")) _
    cases saveAudio with
    | false => exact key fs₀
    | true =>
        by_cases hm : (stem ++ (".mp3")) ∈ fs₀
        · have heq : (cleanupAudioFiles stem true dir fs₀).1 =
              (removeSwallowMissing (stem ++ (".m4a"))
                (removeSwallowMissing (stem ++ (".mp3"))
                  (((if dir = "" then ("audiosave") else dir) ++ ("/") ++
                      (stem ++ (".mp3"))) :: fs₀)).1).1 := by
            simp only [cleanupAudioFiles, if_pos hm, if_pos trivial]
          rw [heq]
          exact key _
        · have heq : (cleanupAudioFiles stem true dir fs₀).1 =
              (removeSwallowMissing (stem ++ (".m4a"))
                (removeSwallowMissing (stem ++ (".mp3")) fs₀).1).1 := by
            simp only [cleanupAudioFiles, if_neg hm, if_pos trivial]
          rw [heq]
          exact key _

/-- Witness for C9 at a concrete filesystem holding the MP3 artifact. -/
theorem cleanup_order_and_tolerance_witness :
    ("100-1" ++ (".mp3")) ∈ [("100-1.mp3")] ∧
    ("100-1" ++ (".mp3")) ∉
      (cleanupAudioFiles ("100-1") true ("arch") [("100-1.mp3")]).1 ∧
    ("100-1" ++ (".m4a")) ∉ (cleanupAudioFiles ("100-1") false ("arch") []).1 := by
  have hm : ("100-1" ++ (".mp3")) ∈ [("100-1.mp3")] := by decide
  have h := cleanup_order_and_tolerance ("100-1") ("arch") [("100-1.mp3")] hm
  exact ⟨hm, (h.2 true [("100-1.mp3")]).1, (h.2 false []).2⟩
